import Mathlib

/- Shallow embedding of the Yacht dice game in src/main.rs.

   Conventions:
   * Machine integers (u8, u16) are modelled as Nat.  Where the Rust
     arithmetic can wrap (the u8 accumulator of `table_total`) the wrap
     `% 256` is written explicitly; everywhere else the values stay far
     below 256 on dice in [1,6], so plain Nat is exact.
   * The fixed-size arrays `[u8; 5]` / `[bool; 5]` are modelled as lists;
     `Roll.WF` states the length-5 and 1..6-range invariants the Rust
     types give for free.
   * The random generator `rand::thread_rng().gen_range(1..=6)` is
     injected: a function `fresh : Nat → Nat` gives the value drawn for
     die index i during one command.  The real generator only produces
     values in [1,6]; theorems that need this take it as a hypothesis.
   * Rust panics (`panic!`, `todo!`) are modelled by the `CmdResult.panic`
     constructor, which records the game state reached at the panic
     point.  The `Err` variant of `attempt_command`'s `Result` type is
     kept as `CmdResult.err`; the source never constructs it. -/

inductive ScoreType where
  | Aces | Twos | Threes | Fours | Fives | Sixes
  | FourOfKind | FullHouse | LittleStraight | BigStraight | Yacht | Chance
  deriving DecidableEq

/-- `struct Roll { dice: [u8; 5], holds: [bool; 5] }`. -/
structure Roll where
  dice : List Nat
  holds : List Bool
  deriving DecidableEq

/-- The invariants the Rust types give `Roll` for free: five dice, five
hold flags, every die in [1,6]. -/
def Roll.WF (r : Roll) : Prop :=
  r.dice.length = 5 ∧ r.holds.length = 5 ∧ ∀ d ∈ r.dice, 1 ≤ d ∧ d ≤ 6

instance (r : Roll) : Decidable r.WF := by
  unfold Roll.WF; infer_instance

/-- `Roll::gen_roll`: five draws from the generator. -/
def gen_roll (fresh : Nat → Nat) : List Nat :=
  [fresh 0, fresh 1, fresh 2, fresh 3, fresh 4]

/-- `Roll::new`: fresh dice, all holds cleared. -/
def Roll.new (fresh : Nat → Nat) : Roll :=
  { dice := gen_roll fresh, holds := List.replicate 5 false }

/-- `Roll::sort`: `self.dice.sort()` (ascending); holds untouched. -/
def Roll.sort (r : Roll) : Roll :=
  { r with dice := r.dice.insertionSort (· ≤ ·) }

/-- `Roll::reset_holds`: `self.holds = [false; 5]`. -/
def Roll.reset_holds (r : Roll) : Roll :=
  { r with holds := List.replicate 5 false }

/-- `Roll::roll_with_holds`: `for i in 0..5 { if !holds[i] { dice[i] = rng } }`. -/
def rollWithHolds (fresh : Nat → Nat) (r : Roll) : Roll :=
  { r with
    dice := (List.range 5).foldl
      (fun d i => if r.holds.getD i false then d else d.set i (fresh i))
      r.dice }

/-- `enum DiceNum` (die indices 0..4 as named variants). -/
inductive DiceNum where
  | First | Second | Third | Fourth | Fifth
  deriving DecidableEq

def DiceNum.toIdx : DiceNum → Nat
  | .First => 0
  | .Second => 1
  | .Third => 2
  | .Fourth => 3
  | .Fifth => 4

/-- `Roll::hold`: toggle the hold flag at the given die, returning the
new flag value (true = now held) together with the updated roll. -/
def Roll.hold (r : Roll) (n : DiceNum) : Bool × Roll :=
  if r.holds.getD n.toIdx false then
    (false, { r with holds := r.holds.set n.toIdx false })
  else
    (true, { r with holds := r.holds.set n.toIdx true })

/-- `struct ScoreTable { table: HashMap<ScoreType, u8> }`, modelled as an
association list; insertions are guarded by `check_table`, so keys stay
distinct and the list length is the map's `len()`. -/
structure ScoreTable where
  table : List (ScoreType × Nat)
  deriving DecidableEq

/-- `ScoreTable::check_table`: `self.table.contains_key(score_type)`. -/
def check_table (t : ScoreTable) (s : ScoreType) : Bool :=
  t.table.any (fun p => decide (p.1 = s))

/-- `ScoreTable::table_total`: the accumulator `sum` is a `u8` (only the
final value is cast to `u16`), so each addition wraps at 256. -/
def table_total (t : ScoreTable) : Nat :=
  t.table.foldl (fun sum p => (sum + p.2) % 256) 0

/-- `upper`: for each die equal to `n`, add `n`. -/
def upper (r : Roll) (n : Nat) : Nat :=
  r.dice.foldl (fun x i => if i = n then x + n else x) 0

/-- The inner counting loop of the FullHouse arm: how many dice show `v`. -/
def countFace (dice : List Nat) (v : Nat) : Nat :=
  dice.foldl (fun amount x => if x = v then amount + 1 else amount) 0

/-- The FullHouse arm's `for i in 1..=6` loop: the last face with count 3
(`first`) and the last face with count 2 (`second`), 0 when none. -/
def fullHouseFold (dice : List Nat) : Nat × Nat :=
  (List.range' 1 6).foldl
    (fun p i =>
      let amount := countFace dice i
      let first := if amount = 3 then i else p.1
      let second := if amount = 2 then i else p.2
      (first, second))
    (0, 0)

/-- `evaluate_score`, arm for arm; the FourOfKind patterns are kept in
the source order. -/
def evaluate_score (r : Roll) (score_type : ScoreType) : Nat :=
  match score_type with
  | .Aces => upper r 1
  | .Twos => upper r 2
  | .Threes => upper r 3
  | .Fours => upper r 4
  | .Fives => upper r 5
  | .Sixes => upper r 6
  | .FourOfKind =>
    match r.dice with
    | [1, 1, 1, 1, _] => 4
    | [_, 2, 2, 2, 2] => 8
    | [2, 2, 2, 2, _] => 8
    | [_, 3, 3, 3, 3] => 12
    | [3, 3, 3, 3, _] => 12
    | [_, 4, 4, 4, 4] => 16
    | [4, 4, 4, 4, _] => 16
    | [_, 5, 5, 5, 5] => 20
    | [5, 5, 5, 5, _] => 20
    | [_, 6, 6, 6, 6] => 24
    | _ => 0
  | .FullHouse =>
    let p := fullHouseFold r.dice
    if p.1 = 0 ∨ p.2 = 0 then 0
    else if p.1 ≠ p.2 then 25
    else 0
  | .LittleStraight =>
    match r.dice with
    | [1, 2, 3, 4, 5] => 30
    | _ => 0
  | .BigStraight =>
    if r.dice = [2, 3, 4, 5, 6] then 30 else 0
  | .Yacht =>
    match r.dice with
    | [] => 0
    | i :: _ => if r.dice.all (fun x => x == i) then 50 else 0
  | .Chance => r.dice.foldl (fun sum x => sum + x) 0

/-- `ScoreTable::score_on_table`: fail (false, unchanged) when the
category is used, otherwise insert the evaluated score and succeed. -/
def score_on_table (t : ScoreTable) (score_type : ScoreType) (r : Roll) :
    Bool × ScoreTable :=
  if check_table t score_type then
    (false, t)
  else
    (true, ⟨(score_type, evaluate_score r score_type) :: t.table⟩)

inductive GameStates where
  | FirstRoll | SecondRoll | ThirdRoll | GameOver
  deriving DecidableEq

structure Game where
  game_state : GameStates
  current_roll : Roll
  score_table : ScoreTable
  msg : String
  deriving DecidableEq

/-- `Game::new`. -/
def Game.new (fresh : Nat → Nat) : Game :=
  { game_state := .FirstRoll
    current_roll := Roll.new fresh
    score_table := ⟨[]⟩
    msg := "" }

/-- `Game::advance_gamestate`; `none` is the panic from ThirdRoll or
GameOver. -/
def advance_gamestate : GameStates → Option GameStates
  | .FirstRoll => some .SecondRoll
  | .SecondRoll => some .ThirdRoll
  | .ThirdRoll => none
  | .GameOver => none

inductive Command where
  | Roll
  | Sort
  | Score (score_type : ScoreType)
  | Hold (hold_num : DiceNum)
  | New
  | Quit
  | Help (topic : String)
  | NotRecognised (reason : String)
  deriving DecidableEq

/-- Outcome of `Game::attempt_command`: `ok`/`err` are the two variants
of its `Result<String, String>` (`err` is never constructed), `panic`
records the game state reached when the function panics. -/
inductive CmdResult where
  | ok (g : Game) (msg : String)
  | err (g : Game) (msg : String)
  | panic (g : Game)
  deriving DecidableEq

/-- `Game::attempt_command`, branch for branch. -/
def attempt_command (fresh : Nat → Nat) (g : Game) (c : Command) : CmdResult :=
  match c with
  | .Roll =>
    if g.game_state = .ThirdRoll then
      .ok g "No more rolls available this round, try 'score'"
    else
      let g1 := { g with current_roll := rollWithHolds fresh g.current_roll }
      match advance_gamestate g1.game_state with
      | some s => .ok { g1 with game_state := s } "Onto next roll"
      | none => .panic g1
  | .Sort =>
    .ok { g with current_roll := (Roll.sort g.current_roll).reset_holds }
      "Dice Sorted!"
  | .Score score_type =>
    let p := score_on_table g.score_table score_type g.current_roll
    if p.1 then
      if p.2.table.length = 12 then
        .ok { g with score_table := p.2, game_state := .GameOver }
          "Game Over! Type 'new' to start a new game!"
      else
        .ok { g with score_table := p.2, game_state := .FirstRoll,
                     current_roll := Roll.new fresh }
          "Score submitted!"
    else .ok g "That score type was already used!"
  | .Hold hold_num =>
    let p := g.current_roll.hold hold_num
    if p.1 then
      .ok { g with current_roll := p.2 }
        ("Held dice number " ++ toString (hold_num.toIdx + 1))
    else
      .ok { g with current_roll := p.2 }
        ("Unheld dice number " ++ toString (hold_num.toIdx + 1))
  | .New =>
    .ok { g with score_table := ⟨[]⟩,
                 current_roll := rollWithHolds fresh g.current_roll,
                 game_state := .FirstRoll }
      "New Game Started"
  | .NotRecognised _ => .panic g
  | .Quit => .panic g
  | .Help _ => .panic g

/-- The control loop's GameOver guard (main): any command arriving while
the state is GameOver is replaced by New before the engine sees it. -/
def loopCommand (g : Game) (c : Command) : Command :=
  if g.game_state = .GameOver then .New else c

/-- The commands `main` ever hands to `attempt_command` (Quit, Help and
NotRecognised are filtered out by the loop before the engine runs). -/
def isEngineCommand : Command → Bool
  | .Roll | .Sort | .Score _ | .Hold _ | .New => true
  | .Quit | .Help _ | .NotRecognised _ => false

/-- A deterministic generator for test traces: die index i draws the
i-th entry of the list. -/
def mkFresh (l : List Nat) : Nat → Nat := fun i => l.getD i 0

/-- Whether `attempt_command` returned the Ok variant of its Result. -/
def CmdResult.isOk : CmdResult → Bool
  | .ok _ _ => true
  | .err _ _ => false
  | .panic _ => false

/-- One step of the control loop on the game value (the message is
stored in msg by main; only the game part matters here). -/
def traceStep (g : Game) (p : (Nat → Nat) × Command) : Game :=
  match attempt_command p.1 g p.2 with
  | .ok g2 _ => g2
  | .err g2 _ => g2
  | .panic g2 => g2

/-- A full 12-round game in which every category is scored at its maximum
value: each pair carries the generator feeding the NEXT roll and the
category scored on the CURRENT roll.  Recorded scores:
5,10,15,20,25,30 (upper), 24 (FourOfKind on five sixes), 25 (FullHouse),
30, 30 (straights), 50 (Yacht), 30 (Chance) - sum 294. -/
def maxTrace : List ((Nat → Nat) × Command) :=
  [ (mkFresh [2,2,2,2,2], .Score .Aces)
  , (mkFresh [3,3,3,3,3], .Score .Twos)
  , (mkFresh [4,4,4,4,4], .Score .Threes)
  , (mkFresh [5,5,5,5,5], .Score .Fours)
  , (mkFresh [6,6,6,6,6], .Score .Fives)
  , (mkFresh [6,6,6,6,6], .Score .Sixes)
  , (mkFresh [3,3,3,2,2], .Score .FourOfKind)
  , (mkFresh [1,2,3,4,5], .Score .FullHouse)
  , (mkFresh [2,3,4,5,6], .Score .LittleStraight)
  , (mkFresh [6,6,6,6,6], .Score .BigStraight)
  , (mkFresh [6,6,6,6,6], .Score .Yacht)
  , (mkFresh [1,1,1,1,1], .Score .Chance) ]

/-- The game state reached by playing `maxTrace` from a fresh game whose
first roll is five aces. -/
def maxGame : Game := maxTrace.foldl traceStep (Game.new (mkFresh [1,1,1,1,1]))

/-- A mid-game position: third roll, die 1 held on a 3, Yacht scored. -/
def heldGame : Game :=
  { game_state := .ThirdRoll
    current_roll := ⟨[3, 3, 3, 3, 3], [true, false, false, false, false]⟩
    score_table := ⟨[(.Yacht, 50)]⟩
    msg := "" }

def sampleRoll : Roll := ⟨[1, 1, 1, 1, 2], List.replicate 5 false⟩

def sampleGame : Game := ⟨.FirstRoll, sampleRoll, ⟨[]⟩, ""⟩

def thirdGame : Game := ⟨.ThirdRoll, sampleRoll, ⟨[]⟩, ""⟩

def usedGame : Game := ⟨.FirstRoll, sampleRoll, ⟨[(.Aces, 4)]⟩, ""⟩

def unsortedGame : Game :=
  ⟨.FirstRoll, ⟨[5, 4, 3, 2, 1], [true, true, false, false, false]⟩, ⟨[]⟩, ""⟩

theorem list_eq5 {α : Type} (l : List α) (h : l.length = 5) :
    ∃ a b c d e, l = [a, b, c, d, e] := by
  rcases l with _ | ⟨a, _ | ⟨b, _ | ⟨c, _ | ⟨d, _ | ⟨e, _ | ⟨f, t⟩⟩⟩⟩⟩⟩ <;>
    simp_all

theorem rollWithHolds_getD (fresh : Nat → Nat) (r : Roll)
    (hd : r.dice.length = 5) (hh : r.holds.length = 5) (i : Nat) (hi : i < 5) :
    (rollWithHolds fresh r).dice.getD i 0 =
      if r.holds.getD i false then r.dice.getD i 0 else fresh i := by
  obtain ⟨a, b, c, d, e, hde⟩ := list_eq5 r.dice hd
  obtain ⟨p, q, s, u, v, hhe⟩ := list_eq5 r.holds hh
  obtain ⟨dice, holds⟩ := r
  simp only at hde hhe
  subst hde hhe
  cases p <;> cases q <;> cases s <;> cases u <;> cases v <;>
    (interval_cases i <;> rfl)

theorem gameover_needs_full (fresh : Nat → Nat) (g : Game) (c : Command)
    (hinv : g.game_state = .GameOver → g.score_table.table.length = 12) :
    ∀ g2 m, attempt_command fresh g c = .ok g2 m →
      g2.game_state = .GameOver → g2.score_table.table.length = 12 := by
  intro g2 m h h2
  cases c
  -- Roll
  · simp only [attempt_command] at h
    split at h
    · rename_i hthird
      cases h
      rw [h2] at hthird
      cases hthird
    · rcases hgs : g.game_state with _ | _ | _ | _ <;>
        rw [hgs] at h <;> simp [advance_gamestate] at h
      · rcases h with ⟨hg2, -⟩
        rw [← hg2] at h2
        simp at h2
      · rcases h with ⟨hg2, -⟩
        rw [← hg2] at h2
        simp at h2
  -- Sort
  · simp only [attempt_command] at h
    cases h
    exact hinv h2
  -- Score
  · rename_i st
    simp only [attempt_command] at h
    rcases hso : score_on_table g.score_table st g.current_roll with ⟨b, t⟩
    rw [hso] at h
    cases b
    · simp only [if_neg] at h
      cases h
      exact hinv h2
    · by_cases h12 : t.table.length = 12
      · simp only [if_pos, h12, if_true] at h
        cases h
        exact h12
      · simp only [if_pos, if_neg h12] at h
        cases h
        simp at h2
  -- Hold
  · rename_i n
    simp only [attempt_command] at h
    rcases hh : g.current_roll.hold n with ⟨b, r⟩
    rw [hh] at h
    cases b
    · simp only [if_neg] at h
      cases h
      exact hinv h2
    · simp only [if_pos] at h
      cases h
      exact hinv h2
  -- New
  · simp only [attempt_command] at h
    cases h
    simp at h2
  -- Quit
  · simp only [attempt_command] at h
    cases h
  -- Help
  · simp only [attempt_command] at h
    cases h
  -- NotRecognised
  · simp only [attempt_command] at h
    cases h

/-- C1: the claim says FourOfKind scores 4*v whenever at least four dice
equal v in any positions.  The code's pattern list has no arm for four
aces ending at index 4, none for four sixes starting at index 0, and
none for non-contiguous arrangements: on (2,1,1,1,1) four dice equal 1
(count 4) yet the evaluator returns 0 instead of 4, and on (6,6,6,6,1)
four dice equal 6 yet it returns 0 instead of 24. -/
theorem fourOfKind_missing_patterns :
    countFace [2, 1, 1, 1, 1] 1 = 4 ∧
    evaluate_score ⟨[2, 1, 1, 1, 1], List.replicate 5 false⟩ .FourOfKind = 0 ∧
    countFace [6, 6, 6, 6, 1] 6 = 4 ∧
    evaluate_score ⟨[6, 6, 6, 6, 1], List.replicate 5 false⟩ .FourOfKind = 0 ∧
    countFace [1, 2, 1, 1, 1] 1 = 4 ∧
    evaluate_score ⟨[1, 2, 1, 1, 1], List.replicate 5 false⟩ .FourOfKind = 0 := by
  decide

/-- C2 counterexample: the claim says New redraws all five dice and
clears all five hold flags.  From a state holding die 1 (a 3) with the
generator supplying sixes, New keeps the held die at 3 and keeps its
hold flag set: the `New` branch calls `roll_with_holds`, not a fresh
roll. -/
theorem new_preserves_holds_cex :
    attempt_command (fun _ => 6) heldGame .New =
      .ok { game_state := .FirstRoll
            current_roll := ⟨[3, 6, 6, 6, 6], [true, false, false, false, false]⟩
            score_table := ⟨[]⟩
            msg := "" } "New Game Started" ∧
    [true, false, false, false, false] ≠ List.replicate 5 false ∧
    (3 : Nat) ≠ 6 := by
  decide

/-- C2 amended: New (in any state) empties the ledger, sets the state to
FirstRoll, and rerolls only the unheld dice: each held die keeps its
value, and all five hold flags are preserved unchanged. -/
theorem new_rerolls_only_unheld (fresh : Nat → Nat) (g : Game)
    (hd : g.current_roll.dice.length = 5)
    (hh : g.current_roll.holds.length = 5) :
    attempt_command fresh g .New =
      .ok { g with score_table := ⟨[]⟩,
                   current_roll := rollWithHolds fresh g.current_roll,
                   game_state := .FirstRoll } "New Game Started" ∧
    (rollWithHolds fresh g.current_roll).holds = g.current_roll.holds ∧
    (∀ i, i < 5 →
      (rollWithHolds fresh g.current_roll).dice.getD i 0 =
        if g.current_roll.holds.getD i false then g.current_roll.dice.getD i 0
        else fresh i) := by
  exact ⟨rfl, rfl, fun i hi => rollWithHolds_getD fresh g.current_roll hd hh i hi⟩

/-- C2 witness: on a game with no holds, New behaves like a full redraw
(instantiating the amended theorem at a concrete state). -/
theorem new_rerolls_only_unheld_witness :
    attempt_command (fun _ => 6) sampleGame .New =
      .ok ⟨.FirstRoll, ⟨[6, 6, 6, 6, 6], List.replicate 5 false⟩, ⟨[]⟩, ""⟩
        "New Game Started" := by
  have h := new_rerolls_only_unheld (fun _ => 6) sampleGame rfl rfl
  exact h.1

/-- C3: the claim says total() equals the exact sum of recorded values
even above 255.  The ledger reached by the legal 12-round game
`maxTrace` (every category at its maximum) sums to 294, but
`table_total` accumulates in u8 and returns 294 mod 256 = 38. -/
theorem table_total_wraps_past_255 :
    maxGame.game_state = .GameOver ∧
    maxGame.score_table.table.length = 12 ∧
    (maxGame.score_table.table.map (fun p => p.2)).sum = 294 ∧
    table_total maxGame.score_table = 38 := by
  decide

/-- C4: scoring an unused category records it; the state becomes
GameOver exactly when the recorded category is the 12th (the table had
11 entries), otherwise FirstRoll with a fresh roll whose holds are all
cleared; and no command can produce an Ok state that is GameOver with
fewer than 12 recorded categories. -/
theorem score_gameover_iff_twelve (fresh : Nat → Nat) (g : Game)
    (st : ScoreType) (c : Command)
    (hunused : check_table g.score_table st = false)
    (hinv : g.game_state = .GameOver → g.score_table.table.length = 12) :
    (g.score_table.table.length = 11 →
      attempt_command fresh g (.Score st) =
        .ok { g with
                score_table := ⟨(st, evaluate_score g.current_roll st) ::
                  g.score_table.table⟩,
                game_state := .GameOver }
          "Game Over! Type 'new' to start a new game!") ∧
    (g.score_table.table.length ≠ 11 →
      attempt_command fresh g (.Score st) =
        .ok { g with
                score_table := ⟨(st, evaluate_score g.current_roll st) ::
                  g.score_table.table⟩,
                game_state := .FirstRoll,
                current_roll := Roll.new fresh }
          "Score submitted!" ∧
      (Roll.new fresh).holds = List.replicate 5 false) ∧
    (∀ g2 m, attempt_command fresh g c = .ok g2 m →
      g2.game_state = .GameOver → g2.score_table.table.length = 12) := by
  refine ⟨?_, ?_, gameover_needs_full fresh g c hinv⟩
  · intro h11
    simp [attempt_command, score_on_table, hunused, h11]
  · intro h11
    refine ⟨?_, rfl⟩
    simp only [attempt_command, score_on_table, hunused, Bool.false_eq_true,
      if_false, if_true]
    rw [if_neg]
    simp only [List.length_cons]
    omega

/-- C4 witness: scoring Aces on a fresh game records 4 points for
(1,1,1,1,2), hands back a FirstRoll state and a fresh roll. -/
theorem score_gameover_iff_twelve_witness :
    attempt_command (fun _ => 1) sampleGame (.Score .Aces) =
      .ok ⟨.FirstRoll, ⟨[1, 1, 1, 1, 1], List.replicate 5 false⟩,
           ⟨[(.Aces, 4)]⟩, ""⟩ "Score submitted!" := by
  have h := score_gameover_iff_twelve (fun _ => 1) sampleGame .Aces .Sort
    (by decide) (by decide)
  exact (h.2.1 (by decide)).1

/-- C5: LittleStraight scores 30 exactly when the dice array is
literally (1,2,3,4,5) in positional order (and otherwise 0), and
BigStraight scores 30 exactly when it is literally (2,3,4,5,6): the
checks are order-sensitive, not multiset-sensitive. -/
theorem straights_order_sensitive (r : Roll) :
    (evaluate_score r .LittleStraight = 30 ↔ r.dice = [1, 2, 3, 4, 5]) ∧
    (evaluate_score r .LittleStraight = 30 ∨ evaluate_score r .LittleStraight = 0) ∧
    (evaluate_score r .BigStraight = 30 ↔ r.dice = [2, 3, 4, 5, 6]) ∧
    (evaluate_score r .BigStraight = 30 ∨ evaluate_score r .BigStraight = 0) := by
  obtain ⟨d, h⟩ := r
  refine ⟨?_, ?_, ?_, ?_⟩
  · show (match d with | [1,2,3,4,5] => 30 | _ => 0) = 30 ↔ d = [1,2,3,4,5]
    split
    · simp_all
    · simp_all
  · show (match d with | [1,2,3,4,5] => 30 | _ => 0) = 30 ∨
        (match d with | [1,2,3,4,5] => 30 | _ => 0) = 0
    split
    · exact Or.inl rfl
    · exact Or.inr rfl
  · show (if d = [2,3,4,5,6] then 30 else 0) = 30 ↔ d = [2,3,4,5,6]
    split <;> simp_all
  · show (if d = [2,3,4,5,6] then 30 else 0) = 30 ∨
        (if d = [2,3,4,5,6] then 30 else 0) = 0
    split
    · exact Or.inl rfl
    · exact Or.inr rfl

/-- C5 witness: the same multiset in reversed order, (5,4,3,2,1),
scores 0 for LittleStraight. -/
theorem straights_order_sensitive_witness :
    evaluate_score ⟨[5, 4, 3, 2, 1], List.replicate 5 false⟩ .LittleStraight = 0 := by
  have h := straights_order_sensitive ⟨[5, 4, 3, 2, 1], List.replicate 5 false⟩
  rcases h.2.1 with h30 | h0
  · exact absurd (h.1.mp h30) (by decide)
  · exact h0

/-- C6: recording an unused category succeeds and stores the evaluated
score; recording the same category again on the resulting ledger fails
with the already-used outcome and leaves the ledger unchanged,
whatever the roll at the second attempt; at the engine level the game
is returned untouched with the already-used message. -/
theorem record_twice_rejected (t : ScoreTable) (st : ScoreType) (r r2 : Roll)
    (fresh : Nat → Nat) (g : Game)
    (hunused : check_table t st = false)
    (hused : check_table g.score_table st = true) :
    score_on_table t st r = (true, ⟨(st, evaluate_score r st) :: t.table⟩) ∧
    check_table ⟨(st, evaluate_score r st) :: t.table⟩ st = true ∧
    score_on_table ⟨(st, evaluate_score r st) :: t.table⟩ st r2 =
      (false, ⟨(st, evaluate_score r st) :: t.table⟩) ∧
    attempt_command fresh g (.Score st) =
      .ok g "That score type was already used!" := by
  have hct : check_table ⟨(st, evaluate_score r st) :: t.table⟩ st = true := by
    simp [check_table]
  refine ⟨?_, hct, ?_, ?_⟩
  · simp [score_on_table, hunused]
  · simp [score_on_table, hct]
  · simp [attempt_command, score_on_table, hused]

/-- C6 witness: Aces recorded once on an empty ledger; the second
attempt fails and returns the same one-entry ledger, and the engine
leaves the game untouched. -/
theorem record_twice_rejected_witness :
    score_on_table ⟨[(.Aces, 4)]⟩ .Aces sampleRoll = (false, ⟨[(.Aces, 4)]⟩) ∧
    attempt_command (fun _ => 1) usedGame (.Score .Aces) =
      .ok usedGame "That score type was already used!" := by
  have h := record_twice_rejected ⟨[]⟩ .Aces sampleRoll sampleRoll
    (fun _ => 1) usedGame (by decide) (by decide)
  exact ⟨h.2.2.1, h.2.2.2⟩

/-- C7: the Roll command in ThirdRoll returns the game completely
unchanged (dice, holds, state, ledger) together with an informational
message. -/
theorem roll_in_thirdroll_noop (fresh : Nat → Nat) (g : Game)
    (h : g.game_state = .ThirdRoll) :
    attempt_command fresh g .Roll =
      .ok g "No more rolls available this round, try 'score'" := by
  simp [attempt_command, h]

/-- C7 witness: the no-op at a concrete ThirdRoll game. -/
theorem roll_in_thirdroll_noop_witness :
    attempt_command (fun _ => 1) thirdGame .Roll =
      .ok thirdGame "No more rolls available this round, try 'score'" := by
  exact roll_in_thirdroll_noop (fun _ => 1) thirdGame rfl

/-- C8: the Sort command (in any non-terminal state) replaces the dice
by a permutation of themselves in non-decreasing order and clears all
five hold flags, leaving state and ledger alone. -/
theorem sort_sorts_and_clears_holds (fresh : Nat → Nat) (g : Game)
    (h : g.game_state ≠ .GameOver) :
    attempt_command fresh g .Sort =
      .ok { g with current_roll := (Roll.sort g.current_roll).reset_holds }
        "Dice Sorted!" ∧
    ((Roll.sort g.current_roll).reset_holds).dice.Perm g.current_roll.dice ∧
    List.Sorted (· ≤ ·) ((Roll.sort g.current_roll).reset_holds).dice ∧
    ((Roll.sort g.current_roll).reset_holds).holds = List.replicate 5 false := by
  refine ⟨rfl, ?_, ?_, rfl⟩
  · exact List.perm_insertionSort _ _
  · exact List.sorted_insertionSort _ _

/-- C8 witness: sorting (5,4,3,2,1) with two dice held yields
(1,2,3,4,5) with every hold cleared. -/
theorem sort_sorts_and_clears_holds_witness :
    attempt_command (fun _ => 1) unsortedGame .Sort =
      .ok ⟨.FirstRoll, ⟨[1, 2, 3, 4, 5], List.replicate 5 false⟩, ⟨[]⟩, ""⟩
        "Dice Sorted!" := by
  have h := sort_sorts_and_clears_holds (fun _ => 1) unsortedGame (by decide)
  exact h.1

/-- C9: the Roll command in GameOver reaches the panic in
`advance_gamestate`, after the dice have already been rerolled (the
panic value carries the mutated roll); the control loop prevents this
by replacing any command with New while in GameOver, and Roll never
panics in a non-GameOver state. -/
theorem roll_in_gameover_panics (fresh : Nat → Nat) (g : Game)
    (h : g.game_state = .GameOver) :
    attempt_command fresh g .Roll =
      .panic { g with current_roll := rollWithHolds fresh g.current_roll } ∧
    loopCommand g .Roll = .New ∧
    (attempt_command fresh g (loopCommand g .Roll)).isOk = true ∧
    (∀ g3 : Game, g3.game_state ≠ .GameOver →
      (attempt_command fresh g3 .Roll).isOk = true) := by
  refine ⟨?_, ?_, ?_, ?_⟩
  · simp [attempt_command, h, advance_gamestate]
  · simp [loopCommand, h]
  · simp [loopCommand, h, attempt_command, CmdResult.isOk]
  · intro g3 hg3
    rcases hgs : g3.game_state with _ | _ | _ | _ <;>
      simp [attempt_command, hgs, advance_gamestate, CmdResult.isOk]
    exact absurd hgs hg3

/-- C9 witness: rolling in the completed game `maxGame` panics with the
dice already rerolled to the generator's values. -/
theorem roll_in_gameover_panics_witness :
    attempt_command (mkFresh [2, 2, 2, 2, 2]) maxGame .Roll =
      .panic { maxGame with
                 current_roll := ⟨[2, 2, 2, 2, 2], List.replicate 5 false⟩ } := by
  have h := roll_in_gameover_panics (mkFresh [2, 2, 2, 2, 2]) maxGame (by decide)
  exact h.1

/-- C10: every engine command (Roll, Sort, Score, Hold, New) applied in
a non-GameOver state returns the Ok variant, never Err and never a
panic, so the unconditional unwrap in the control loop cannot fail. -/
theorem engine_commands_return_ok (fresh : Nat → Nat) (g : Game) (c : Command)
    (hc : isEngineCommand c = true)
    (hg : g.game_state ≠ .GameOver) :
    (attempt_command fresh g c).isOk = true := by
  cases c
  -- Roll
  · rcases hgs : g.game_state with _ | _ | _ | _ <;>
      simp [attempt_command, hgs, advance_gamestate, CmdResult.isOk]
    exact absurd hgs hg
  -- Sort
  · rfl
  -- Score
  · rename_i st
    rcases hso : score_on_table g.score_table st g.current_roll with ⟨b, t⟩
    cases b
    · simp [attempt_command, hso, CmdResult.isOk]
    · simp only [attempt_command, hso]
      split <;> first | rfl | (split <;> rfl)
  -- Hold
  · rename_i n
    rcases hh : g.current_roll.hold n with ⟨b, r⟩
    cases b <;> simp [attempt_command, hh, CmdResult.isOk]
  -- New
  · rfl
  -- Quit
  · simp [isEngineCommand] at hc
  -- Help
  · simp [isEngineCommand] at hc
  -- NotRecognised
  · simp [isEngineCommand] at hc

/-- C10 witness: Roll on a fresh game returns Ok. -/
theorem engine_commands_return_ok_witness :
    (attempt_command (fun _ => 1) sampleGame .Roll).isOk = true := by
  exact engine_commands_return_ok (fun _ => 1) sampleGame .Roll rfl (by decide)
